import Mathlib

/-!
Shallow embedding of `iped-app/resources/scripts/tasks/WhisperProcess.py`.

The script is a worker process: it parses startup parameters, resolves the
device (accelerator vs CPU), loads a whisperx model with a one-shot CPU
fallback, emits startup frames on the protocol channel (`stdout`, saved
before the global redirection), and then serves a line-oriented request
loop (terminate / ping / transcribe).

External collaborators (`whisperx.load_model`, `whisperx.load_audio` +
`model.transcribe`, `GPUtil.getGPUs`, Python's `str` on the numeric score)
are modelled as oracle parameters: a load-success predicate on the exact
parameter record the script passes, a per-request transcription oracle
returning either an exception message or a segment list, the accelerator
count, and an abstract score formatter.  Floating-point arithmetic
(`numpy.exp` / `numpy.mean`) is idealised over the reals.
-/

/-- The `terminate` token of the script: `terminate = 'terminate_process'`. -/
def terminate : String := "terminate_process"

/-- The `model_loaded` token of the script. -/
def model_loaded : String := "model_loaded"

/-- The `library_loaded` token of the script. -/
def library_loaded : String := "library_loaded"

/-- The `finished` token of the script: `finished = 'transcription_finished'`. -/
def finished : String := "transcription_finished"

/-- The `ping` keepalive token of the script. -/
def ping : String := "ping"

/-- Python's `s.replace(c, r)` for a one-character pattern and a
one-character replacement: every occurrence of `c` in `s` becomes `r`. -/
def pyReplaceChar (s : String) (c r : Char) : String :=
  ⟨s.data.map fun ch => if ch = c then r else ch⟩

/-- The sanitisation the script applies to the aggregated transcription and
to error messages: `.replace('\n', ' ').replace('\r', ' ')`. -/
def sanitize (s : String) : String :=
  pyReplaceChar (pyReplaceChar s '\n' ' ') '\r' ' '

/-- A payload line fit for the line-framed protocol channel: it embeds no
raw newline and no raw carriage return. -/
def cleanLine (s : String) : Prop :=
  '\n' ∉ s.data ∧ '\r' ∉ s.data

instance (s : String) : Decidable (cleanLine s) := by
  unfold cleanLine; infer_instance

/-- The exact keyword-argument record the script passes to
`whisperx.load_model(modelName, device=..., device_index=..., threads=...,
compute_type=..., language=...)`. -/
structure LoadParams where
  model : String
  device : String
  device_index : Int
  threads : Int
  compute_type : String
  language : Option String
deriving DecidableEq

/-- The device/precision state left behind by a successful load (the
variables `deviceId`, `compute_type`, `language` after the `try` block). -/
structure LoadedConfig where
  deviceId : String
  compute_type : String
  language : Option String
deriving DecidableEq

/-- What startup produces: the protocol lines printed so far, the sequence
of `whisperx.load_model` calls attempted (in order), and the resulting
configuration (`none` when the script re-raises and dies). -/
structure StartupOutcome where
  lines : List String
  attempts : List LoadParams
  loaded : Option LoadedConfig

/-- The `if language == 'detect': language = None` normalisation. -/
def resolvedLanguage (language : String) : Option String :=
  if language = "detect" then none else some language

/-- The first `whisperx.load_model` call: device `'cuda'` with the configured
index when `cudaCount > 0`, otherwise device `'cpu'` with the index forced
to `0` (`deviceNum = 0` in the `else` branch). -/
def firstAttempt (modelName : String) (deviceNum threads : Int)
    (language compute_type : String) (cudaCount : Nat) : LoadParams :=
  if cudaCount > 0 then
    ⟨modelName, "cuda", deviceNum, threads, compute_type, resolvedLanguage language⟩
  else
    ⟨modelName, "cpu", 0, threads, compute_type, resolvedLanguage language⟩

/-- The precision adjustment of the CPU fallback:
`if compute_type == 'float16': compute_type = 'float32'`. -/
def fallbackCompute (compute_type : String) : String :=
  if compute_type = "float16" then "float32" else compute_type

/-- The retry `whisperx.load_model` call in the `except` branch: device
`'cpu'`, the `deviceNum` variable unchanged (it was reset to `0` only when
`cudaCount` was `0`), and the adjusted precision. -/
def fallbackAttempt (modelName : String) (deviceNum threads : Int)
    (language compute_type : String) (cudaCount : Nat) : LoadParams :=
  ⟨modelName, "cpu", if cudaCount > 0 then deviceNum else 0, threads,
    fallbackCompute compute_type, resolvedLanguage language⟩

/-- Startup of `main()` after argument parsing: print `library_loaded`,
print `str(cudaCount)`, resolve the device, try to load the model, on an
accelerator failure retry once on CPU, and on success print `model_loaded`
and the effective `deviceId`.  `loadOk` is the oracle telling whether a
given `whisperx.load_model` call succeeds. -/
def startup (modelName : String) (deviceNum threads : Int)
    (language compute_type : String) (cudaCount : Nat)
    (loadOk : LoadParams → Bool) : StartupOutcome :=
  let preLines := [library_loaded, Nat.repr cudaCount]
  let p1 := firstAttempt modelName deviceNum threads language compute_type cudaCount
  if loadOk p1 then
    ⟨preLines ++ [model_loaded, p1.device], [p1],
      some ⟨p1.device, compute_type, resolvedLanguage language⟩⟩
  else if p1.device ≠ "cpu" then
    let p2 := fallbackAttempt modelName deviceNum threads language compute_type cudaCount
    if loadOk p2 then
      ⟨preLines ++ [model_loaded, "cpu"], [p1, p2],
        some ⟨"cpu", p2.compute_type, resolvedLanguage language⟩⟩
    else
      ⟨preLines, [p1, p2], none⟩
  else
    ⟨preLines, [p1], none⟩

/-- A segment as yielded by `model.transcribe(...)['segments']`: a text and
an optional `avg_logprob` key. -/
structure Segment where
  text : String
  avg_logprob : Option ℝ

/-- Outcome of one request's external work (`whisperx.load_audio` followed
by `model.transcribe`): either an exception whose `repr` is `msg`, or the
ordered segment list. -/
inductive TranscribeResult where
  | err (msg : String)
  | ok (segments : List Segment)

/-- `numpy.exp` applied elementwise, idealised over the reals. -/
noncomputable def npExp (l : List ℝ) : List ℝ := l.map Real.exp

/-- `numpy.mean`, idealised over the reals. -/
noncomputable def npMean (l : List ℝ) : ℝ := l.sum / l.length

/-- The script's confidence score: `0` when `len(logprobs) == 0`, else
`numpy.mean(numpy.exp(logprobs))`. -/
noncomputable def finalScore (logprobs : List ℝ) : ℝ :=
  if logprobs.length = 0 then 0 else npMean (npExp logprobs)

/-- The lines the transcription branch prints for one request.  On an
exception: the single sanitised `repr(e)` line.  On success: `transcription`
is the in-order concatenation of segment texts, `logprobs` collects each
present `avg_logprob`, and the three lines `finished` / `str(finalScore)` /
sanitised text are printed.  `fmt` models Python's `str` on the score. -/
noncomputable def transcriptionResponse (fmt : ℝ → String)
    (r : TranscribeResult) : List String :=
  match r with
  | .err msg => [sanitize msg]
  | .ok segments =>
    let transcription := segments.foldl (fun acc s => acc ++ s.text) ""
    let logprobs := segments.filterMap Segment.avg_logprob
    [finished, fmt (finalScore logprobs), sanitize transcription]

/-- How the request loop ends: `normal` via `break` on the terminate token,
`eofCrash` when `input()` hits end of input and the uncaught `EOFError`
aborts the process. -/
inductive ExitStatus where
  | normal
  | eofCrash
deriving DecidableEq

/-- The `while True` request loop: read a line (`input()` raises `EOFError`
past the end of the list, uncaught), `break` on the terminate token, echo
`ping`, otherwise run the transcription branch and continue.  Returns the
protocol lines printed and how the loop ended.  `oracle` gives each input
line's external transcription outcome under the fixed loaded model and
session configuration. -/
noncomputable def runLoop (fmt : ℝ → String)
    (oracle : String → TranscribeResult) : List String → List String × ExitStatus
  | [] => ([], ExitStatus.eofCrash)
  | line :: rest =>
    if line = terminate then ([], ExitStatus.normal)
    else if line = ping then
      let r := runLoop fmt oracle rest
      (ping :: r.1, r.2)
    else
      let r := runLoop fmt oracle rest
      (transcriptionResponse fmt (oracle line) ++ r.1, r.2)

/-- The response the loop emits for one non-terminate input line — a
function of the line and the oracle (the fixed model/session configuration)
only. -/
noncomputable def lineResponse (fmt : ℝ → String)
    (oracle : String → TranscribeResult) (line : String) : List String :=
  if line = ping then [ping] else transcriptionResponse fmt (oracle line)

/-- How the whole process ends. -/
inductive ProcExit where
  | normal
  | eofCrash
  | loadFailure
deriving DecidableEq

/-- The whole of `main()` on the protocol channel: the startup lines, then
(when loading succeeded) the request-loop lines; a fatal load re-raise
ends the process with `loadFailure`. -/
noncomputable def runMain (modelName : String) (deviceNum threads : Int)
    (language compute_type : String) (cudaCount : Nat)
    (loadOk : LoadParams → Bool) (fmt : ℝ → String)
    (oracle : String → TranscribeResult) (inputs : List String) :
    List String × ProcExit :=
  let st := startup modelName deviceNum threads language compute_type cudaCount loadOk
  match st.loaded with
  | none => (st.lines, ProcExit.loadFailure)
  | some _ =>
    let r := runLoop fmt oracle inputs
    (st.lines ++ r.1,
      match r.2 with
      | ExitStatus.normal => ProcExit.normal
      | ExitStatus.eofCrash => ProcExit.eofCrash)

/-- A concrete score formatter for instantiations: every score prints as
`"0"`. -/
def fmtZero : ℝ → String := fun _ => "0"

/-- A concrete transcription oracle for instantiations: every request fails
with `repr(e) = "boom"`. -/
def oracleErr : String → TranscribeResult := fun _ => TranscribeResult.err "boom"

/-- A concrete load oracle for instantiations: every load succeeds. -/
def loadAlways : LoadParams → Bool := fun _ => true

/-- A concrete load oracle for instantiations: only CPU loads succeed, so an
accelerator attempt fails and the fallback succeeds. -/
def loadCpuOnly : LoadParams → Bool := fun p => p.device == "cpu"

/-! Helper lemmas. -/

theorem pyReplaceChar_data (s : String) (c r : Char) :
    (pyReplaceChar s c r).data = s.data.map fun ch => if ch = c then r else ch := rfl

theorem sanitizeChar_clean (ch : Char) :
    (if (if ch = '\n' then ' ' else ch) = '\r' then ' '
      else if ch = '\n' then ' ' else ch) ≠ '\n' ∧
    (if (if ch = '\n' then ' ' else ch) = '\r' then ' '
      else if ch = '\n' then ' ' else ch) ≠ '\r' := by
  by_cases h1 : ch = '\n'
  · subst h1; exact ⟨by decide, by decide⟩
  · by_cases h2 : ch = '\r'
    · subst h2; exact ⟨by decide, by decide⟩
    · simp only [if_neg h1, if_neg h2]
      exact ⟨h1, h2⟩

theorem sanitize_data (s : String) :
    (sanitize s).data = s.data.map fun ch =>
      if (if ch = '\n' then ' ' else ch) = '\r' then ' '
      else if ch = '\n' then ' ' else ch := by
  simp [sanitize, pyReplaceChar_data, List.map_map, Function.comp_def]

theorem sanitize_clean (s : String) : cleanLine (sanitize s) := by
  constructor <;>
  · intro hmem
    rw [sanitize_data] at hmem
    rcases List.mem_map.mp hmem with ⟨ch, -, hch⟩
    rcases sanitizeChar_clean ch with ⟨h1, h2⟩
    simp_all

theorem digitChar_clean (m : Nat) :
    Nat.digitChar m ≠ '\n' ∧ Nat.digitChar m ≠ '\r' := by
  by_cases h : m < 16
  · interval_cases m <;> exact ⟨by decide, by decide⟩
  · unfold Nat.digitChar
    repeat rw [if_neg (by omega)]
    exact ⟨by decide, by decide⟩

theorem toDigitsCore_mem (b : Nat) :
    ∀ (fuel n : Nat) (ds : List Char), ∀ c ∈ Nat.toDigitsCore b fuel n ds,
      (∃ m, c = Nat.digitChar m) ∨ c ∈ ds := by
  intro fuel
  induction fuel with
  | zero => intro n ds c hc; exact Or.inr hc
  | succ fuel ih =>
    intro n ds c hc
    simp only [Nat.toDigitsCore] at hc
    split at hc
    · rcases List.mem_cons.mp hc with h | h
      · exact Or.inl ⟨n % b, h⟩
      · exact Or.inr h
    · rcases ih (n / b) (Nat.digitChar (n % b) :: ds) c hc with h | h
      · exact Or.inl h
      · rcases List.mem_cons.mp h with h2 | h2
        · exact Or.inl ⟨n % b, h2⟩
        · exact Or.inr h2

theorem natRepr_clean (n : Nat) : cleanLine (Nat.repr n) := by
  have hdata : (Nat.repr n).data = Nat.toDigits 10 n := rfl
  constructor <;>
  · rw [hdata]
    intro hmem
    rcases toDigitsCore_mem 10 (n + 1) n [] _ hmem with ⟨m, hm⟩ | h
    · rcases digitChar_clean m with ⟨h1, h2⟩
      first
        | exact h1 hm.symm
        | exact h2 hm.symm
    · simp at h

theorem firstAttempt_device (m : String) (dn t : Int) (lang ct : String) (cc : Nat) :
    (firstAttempt m dn t lang ct cc).device = if cc > 0 then "cuda" else "cpu" := by
  unfold firstAttempt
  split <;> rfl

theorem firstAttempt_device_cases (m : String) (dn t : Int) (lang ct : String) (cc : Nat) :
    (firstAttempt m dn t lang ct cc).device = "cuda" ∨
    (firstAttempt m dn t lang ct cc).device = "cpu" := by
  rw [firstAttempt_device]
  split
  · exact Or.inl rfl
  · exact Or.inr rfl

theorem startup_loaded_lines (m : String) (dn t : Int) (lang ct : String)
    (cc : Nat) (loadOk : LoadParams → Bool) (cfg : LoadedConfig)
    (h : (startup m dn t lang ct cc loadOk).loaded = some cfg) :
    (startup m dn t lang ct cc loadOk).lines =
      [library_loaded, Nat.repr cc, model_loaded, cfg.deviceId] ∧
    (cfg.deviceId = "cuda" ∨ cfg.deviceId = "cpu") := by
  have hdev := firstAttempt_device_cases m dn t lang ct cc
  simp only [startup] at h ⊢
  split_ifs at h ⊢ with h1 h2 h3
  · injection h with h4
    subst h4
    exact ⟨rfl, hdev⟩
  · injection h with h4
    subst h4
    exact ⟨rfl, Or.inr rfl⟩

theorem runLoop_nil (fmt : ℝ → String) (oracle : String → TranscribeResult) :
    runLoop fmt oracle [] = ([], ExitStatus.eofCrash) := rfl

theorem runLoop_cons (fmt : ℝ → String) (oracle : String → TranscribeResult)
    (line : String) (rest : List String) :
    runLoop fmt oracle (line :: rest) =
      if line = terminate then ([], ExitStatus.normal)
      else (lineResponse fmt oracle line ++ (runLoop fmt oracle rest).1,
        (runLoop fmt oracle rest).2) := by
  by_cases h1 : line = terminate
  · simp [runLoop, h1]
  · by_cases h2 : line = ping
    · simp [runLoop, lineResponse, h1, h2]
    · simp [runLoop, lineResponse, h1, h2]
theorem transcriptionResponse_clean (fmt : ℝ → String)
    (hfmt : ∀ x : ℝ, cleanLine (fmt x)) (r : TranscribeResult) :
    ∀ s ∈ transcriptionResponse fmt r, cleanLine s := by
  intro s hs
  cases r with
  | err msg =>
    simp only [transcriptionResponse, List.mem_singleton] at hs
    subst hs
    exact sanitize_clean msg
  | ok segments =>
    simp only [transcriptionResponse, List.mem_cons, List.mem_singleton,
      List.not_mem_nil, or_false] at hs
    rcases hs with h | h | h
    · subst h
      decide
    · subst h
      exact hfmt _
    · subst h
      exact sanitize_clean _

theorem startup_lines_clean (m : String) (dn t : Int) (lang ct : String)
    (cc : Nat) (loadOk : LoadParams → Bool) :
    ∀ s ∈ (startup m dn t lang ct cc loadOk).lines, cleanLine s := by
  intro s hs
  have hdev := firstAttempt_device_cases m dn t lang ct cc
  simp only [startup] at hs
  split_ifs at hs with h1 h2 h3 <;>
    simp only [List.cons_append, List.nil_append, List.mem_cons,
      List.not_mem_nil, or_false] at hs
  · rcases hs with h | h | h | h
    · subst h; decide
    · subst h; exact natRepr_clean cc
    · subst h; decide
    · subst h
      rcases hdev with hd | hd <;> rw [hd] <;> decide
  · rcases hs with h | h | h | h
    · subst h; decide
    · subst h; exact natRepr_clean cc
    · subst h; decide
    · subst h; decide
  · rcases hs with h | h
    · subst h; decide
    · subst h; exact natRepr_clean cc
  · rcases hs with h | h
    · subst h; decide
    · subst h; exact natRepr_clean cc

theorem runLoop_clean (fmt : ℝ → String) (hfmt : ∀ x : ℝ, cleanLine (fmt x))
    (oracle : String → TranscribeResult) :
    ∀ inputs : List String, ∀ s ∈ (runLoop fmt oracle inputs).1, cleanLine s := by
  intro inputs
  induction inputs with
  | nil =>
    intro s hs
    simp [runLoop_nil] at hs
  | cons line rest ih =>
    intro s hs
    rw [runLoop_cons] at hs
    split_ifs at hs with h
    · simp at hs
    · rcases List.mem_append.mp hs with h2 | h2
      · unfold lineResponse at h2
        split_ifs at h2 with hp
        · rw [List.mem_singleton] at h2
          subst h2
          decide
        · exact transcriptionResponse_clean fmt hfmt _ s h2
      · exact ih s h2

/-! Claim theorems. -/

/-- C1 counterexample: startup configured with device index 3 and one
accelerator present; the accelerator load fails and the CPU retry runs.
The two load calls carry device indices 3 and 3: the fallback call does
not reset the index to 0. -/
theorem c1_counterexample :
    (startup "base" 3 4 "en" "float16" 1 loadCpuOnly).attempts.map
        LoadParams.device_index = [3, 3] ∧
    ¬ (startup "base" 3 4 "en" "float16" 1 loadCpuOnly).attempts.map
        LoadParams.device_index = [3, 0] := by
  constructor
  · decide
  · decide

/-- C1 (amended): if the initial accelerator load fails, the fallback load
attempt uses device kind CPU but keeps the device index configured at
startup; the index is not reset to 0. -/
theorem c1_fallback_keeps_index (m : String) (dn t : Int) (lang ct : String)
    (cc : Nat) (loadOk : LoadParams → Bool)
    (hcc : cc > 0) (hfail : loadOk (firstAttempt m dn t lang ct cc) = false) :
    (startup m dn t lang ct cc loadOk).attempts =
      [firstAttempt m dn t lang ct cc, fallbackAttempt m dn t lang ct cc] ∧
    (fallbackAttempt m dn t lang ct cc).device = "cpu" ∧
    (fallbackAttempt m dn t lang ct cc).device_index = dn := by
  refine ⟨?_, rfl, ?_⟩
  · simp only [startup, hfail, Bool.false_eq_true, if_false, firstAttempt_device,
      if_pos hcc]
    rw [if_pos (by decide : ("cuda" : String) ≠ "cpu")]
    split <;> rfl
  · simp only [fallbackAttempt]
    rw [if_pos hcc]

/-- C1 witness: the amended statement at the counterexample's inputs. -/
theorem c1_fallback_keeps_index_witness :
    (startup "base" 3 4 "en" "float16" 1 loadCpuOnly).attempts =
      [firstAttempt "base" 3 4 "en" "float16" 1,
        fallbackAttempt "base" 3 4 "en" "float16" 1] ∧
    (fallbackAttempt "base" 3 4 "en" "float16" 1).device = "cpu" ∧
    (fallbackAttempt "base" 3 4 "en" "float16" 1).device_index = 3 :=
  c1_fallback_keeps_index "base" 3 4 "en" "float16" 1 loadCpuOnly (by decide)
    (by decide)

/-- C2 counterexample: after startup, closing the input stream (no input
lines) exits the loop with the uncaught-EOFError status, while the
terminate token exits with the normal status: the two are not handled
exactly alike, since only the latter exits the process normally. -/
theorem c2_counterexample :
    runLoop fmtZero oracleErr [] = ([], ExitStatus.eofCrash) ∧
    runLoop fmtZero oracleErr [terminate] = ([], ExitStatus.normal) ∧
    ExitStatus.eofCrash ≠ ExitStatus.normal := by
  refine ⟨rfl, ?_, by decide⟩
  rw [runLoop_cons, if_pos rfl]

/-- C2 (amended): closing the input stream emits no response and exits the
request loop, like the terminate token, but the loop ends with the
uncaught-EOFError status, so the process aborts instead of exiting
normally as it does on the terminate token. -/
theorem c2_eof_crashes (fmt : ℝ → String) (oracle : String → TranscribeResult)
    (rest : List String) :
    runLoop fmt oracle [] = ([], ExitStatus.eofCrash) ∧
    runLoop fmt oracle (terminate :: rest) = ([], ExitStatus.normal) ∧
    ExitStatus.eofCrash ≠ ExitStatus.normal := by
  refine ⟨rfl, ?_, by decide⟩
  rw [runLoop_cons, if_pos rfl]

/-- C3: when an accelerator is present, the accelerator load fails and the
CPU retry succeeds, the line after `model_loaded` is `cpu`, and a
`float16` request is retried as `float32`. -/
theorem c3_gpu_fallback (m : String) (dn t : Int) (lang ct : String)
    (cc : Nat) (loadOk : LoadParams → Bool)
    (hcc : cc > 0)
    (hfail : loadOk (firstAttempt m dn t lang ct cc) = false)
    (hok : loadOk (fallbackAttempt m dn t lang ct cc) = true) :
    (startup m dn t lang ct cc loadOk).lines =
      [library_loaded, Nat.repr cc, model_loaded, "cpu"] ∧
    (startup m dn t lang ct cc loadOk).attempts =
      [firstAttempt m dn t lang ct cc, fallbackAttempt m dn t lang ct cc] ∧
    (ct = "float16" → (fallbackAttempt m dn t lang ct cc).compute_type = "float32") := by
  refine ⟨?_, ?_, ?_⟩
  · simp only [startup, hfail, Bool.false_eq_true, if_false, firstAttempt_device,
      if_pos hcc]
    rw [if_pos (by decide : ("cuda" : String) ≠ "cpu"), if_pos hok]
    rfl
  · simp only [startup, hfail, Bool.false_eq_true, if_false, firstAttempt_device,
      if_pos hcc]
    rw [if_pos (by decide : ("cuda" : String) ≠ "cpu"), if_pos hok]
  · intro h
    subst h
    simp [fallbackAttempt, fallbackCompute]

/-- C3 witness: one accelerator, a load oracle that fails on `cuda` and
succeeds on `cpu`, requested precision `float16`. -/
theorem c3_gpu_fallback_witness :
    (startup "base" 3 4 "en" "float16" 1 loadCpuOnly).lines =
      [library_loaded, Nat.repr 1, model_loaded, "cpu"] ∧
    (startup "base" 3 4 "en" "float16" 1 loadCpuOnly).attempts =
      [firstAttempt "base" 3 4 "en" "float16" 1,
        fallbackAttempt "base" 3 4 "en" "float16" 1] ∧
    ("float16" = "float16" →
      (fallbackAttempt "base" 3 4 "en" "float16" 1).compute_type = "float32") :=
  c3_gpu_fallback "base" 3 4 "en" "float16" 1 loadCpuOnly (by decide) (by decide)
    (by decide)

/-- C4: the confidence score is exactly 0 when no segment carried a
log-probability, and otherwise the arithmetic mean of the exponentials of
the collected log-probabilities. -/
theorem c4_score (l : List ℝ) :
    (l = [] → finalScore l = 0) ∧
    (l ≠ [] → finalScore l = (l.map Real.exp).sum / l.length) := by
  constructor
  · intro h
    subst h
    rfl
  · intro h
    unfold finalScore npMean npExp
    rw [if_neg (by simpa using h)]
    rw [List.length_map]

/-- C4 witness: the empty log-probability list scores exactly 0. -/
theorem c4_score_witness : ([] : List ℝ) = [] ∧ finalScore [] = 0 :=
  ⟨rfl, (c4_score []).1 rfl⟩

/-- C5: when a request's external work raises, the loop emits exactly one
line — the error description with newlines and carriage returns replaced
by spaces — and continues with the remaining input unchanged. -/
theorem c5_error_response (fmt : ℝ → String) (oracle : String → TranscribeResult)
    (line msg : String) (rest : List String)
    (h1 : line ≠ terminate) (h2 : line ≠ ping)
    (h3 : oracle line = TranscribeResult.err msg) :
    runLoop fmt oracle (line :: rest) =
      (sanitize msg :: (runLoop fmt oracle rest).1, (runLoop fmt oracle rest).2) ∧
    cleanLine (sanitize msg) := by
  refine ⟨?_, sanitize_clean msg⟩
  rw [runLoop_cons, if_neg h1]
  unfold lineResponse
  rw [if_neg h2, h3]
  rfl

/-- C5 witness: a failing request between startup and end of input. -/
theorem c5_error_response_witness :
    runLoop fmtZero oracleErr ["x"] =
      (sanitize "boom" :: (runLoop fmtZero oracleErr []).1,
        (runLoop fmtZero oracleErr []).2) ∧
    cleanLine (sanitize "boom") :=
  c5_error_response fmtZero oracleErr "x" "boom" [] (by decide) (by decide) rfl

/-- C6: the dispatcher: the terminate token ends the loop with no output,
the ping token echoes exactly `ping` and the loop continues, and every
other line goes to the transcription handler with the loop continuing
regardless of the handler's outcome. -/
theorem c6_dispatch (fmt : ℝ → String) (oracle : String → TranscribeResult)
    (line : String) (rest : List String) :
    (line = terminate → runLoop fmt oracle (line :: rest) = ([], ExitStatus.normal)) ∧
    (line = ping → runLoop fmt oracle (line :: rest) =
      (ping :: (runLoop fmt oracle rest).1, (runLoop fmt oracle rest).2)) ∧
    (line ≠ terminate → line ≠ ping → runLoop fmt oracle (line :: rest) =
      (transcriptionResponse fmt (oracle line) ++ (runLoop fmt oracle rest).1,
        (runLoop fmt oracle rest).2)) := by
  refine ⟨?_, ?_, ?_⟩
  · intro h
    rw [runLoop_cons, if_pos h]
  · intro h
    subst h
    rw [runLoop_cons, if_neg (by decide)]
    unfold lineResponse
    rw [if_pos rfl]
    rfl
  · intro h1 h2
    rw [runLoop_cons, if_neg h1]
    unfold lineResponse
    rw [if_neg h2]

/-- C6 witness: the ping case at a concrete session. -/
theorem c6_dispatch_witness :
    runLoop fmtZero oracleErr [ping] =
      (ping :: (runLoop fmtZero oracleErr []).1, (runLoop fmtZero oracleErr []).2) :=
  (c6_dispatch fmtZero oracleErr ping []).2.1 rfl

/-- C7: every payload line the process writes to the protocol channel —
startup frames, device count, marker tokens, error descriptions, scores
and sanitised transcriptions — is free of raw newline and carriage-return
characters, provided the score formatter (Python's `str` on a number)
emits such characters never. -/
theorem c7_protocol_clean (m : String) (dn t : Int) (lang ct : String)
    (cc : Nat) (loadOk : LoadParams → Bool) (fmt : ℝ → String)
    (oracle : String → TranscribeResult) (inputs : List String)
    (hfmt : ∀ x : ℝ, cleanLine (fmt x)) :
    ∀ s ∈ (runMain m dn t lang ct cc loadOk fmt oracle inputs).1, cleanLine s := by
  intro s hs
  simp only [runMain] at hs
  rcases hloaded : (startup m dn t lang ct cc loadOk).loaded with - | cfg
  · rw [hloaded] at hs
    exact startup_lines_clean m dn t lang ct cc loadOk s hs
  · rw [hloaded] at hs
    simp only [List.mem_append] at hs
    rcases hs with h | h
    · exact startup_lines_clean m dn t lang ct cc loadOk s h
    · exact runLoop_clean fmt hfmt oracle inputs s h

/-- C7 witness: the first startup frame of a concrete run is clean. -/
theorem c7_protocol_clean_witness : cleanLine library_loaded :=
  c7_protocol_clean "base" 0 1 "en" "int8" 0 loadAlways fmtZero oracleErr []
    (fun x => (by decide : cleanLine "0")) library_loaded (by decide)

/-- C8: with zero accelerator devices, the one load call uses device kind
`cpu` and device index 0, whatever index was configured. -/
theorem c8_zero_accelerators (m : String) (dn t : Int) (lang ct : String)
    (loadOk : LoadParams → Bool) :
    (startup m dn t lang ct 0 loadOk).attempts =
      [⟨m, "cpu", 0, t, ct, resolvedLanguage lang⟩] := by
  have hfa : firstAttempt m dn t lang ct 0 = ⟨m, "cpu", 0, t, ct, resolvedLanguage lang⟩ := by
    unfold firstAttempt
    rw [if_neg (by decide)]
  simp only [startup, hfa]
  split_ifs with h1 h2 h3
  · rfl
  · exact absurd rfl h2
  · exact absurd rfl h2
  · rfl

/-- C9: on every successful startup the protocol channel carries exactly
`library_loaded`, the accelerator count in decimal, `model_loaded` and the
effective device kind — in that order, before any request output — and
the device kind is `cuda` or `cpu`. -/
theorem c9_startup_frames (m : String) (dn t : Int) (lang ct : String)
    (cc : Nat) (loadOk : LoadParams → Bool) (fmt : ℝ → String)
    (oracle : String → TranscribeResult) (inputs : List String)
    (cfg : LoadedConfig)
    (h : (startup m dn t lang ct cc loadOk).loaded = some cfg) :
    (runMain m dn t lang ct cc loadOk fmt oracle inputs).1 =
      [library_loaded, Nat.repr cc, model_loaded, cfg.deviceId] ++
        (runLoop fmt oracle inputs).1 ∧
    (cfg.deviceId = "cuda" ∨ cfg.deviceId = "cpu") := by
  obtain ⟨hlines, hdev⟩ := startup_loaded_lines m dn t lang ct cc loadOk cfg h
  refine ⟨?_, hdev⟩
  simp only [runMain, h]
  rw [hlines]

/-- C9 witness: a concrete successful CPU startup. -/
theorem c9_startup_frames_witness :
    (runMain "base" 0 1 "en" "int8" 0 loadAlways fmtZero oracleErr []).1 =
      [library_loaded, Nat.repr 0, model_loaded,
        (⟨"cpu", "int8", some "en"⟩ : LoadedConfig).deviceId] ++
        (runLoop fmtZero oracleErr []).1 ∧
    ((⟨"cpu", "int8", some "en"⟩ : LoadedConfig).deviceId = "cuda" ∨
      (⟨"cpu", "int8", some "en"⟩ : LoadedConfig).deviceId = "cpu") :=
  c9_startup_frames "base" 0 1 "en" "int8" 0 loadAlways fmtZero oracleErr []
    ⟨"cpu", "int8", some "en"⟩ (by decide)

/-- C10: the output emitted for one request is a function of that request's
line and the transcription oracle alone: whatever terminate-free history
precedes it and whatever follows it, the same `lineResponse` block appears
in its place. -/
theorem c10_history_independence (fmt : ℝ → String)
    (oracle : String → TranscribeResult) (pre : List String) (line : String)
    (rest : List String) (hpre : terminate ∉ pre) (hline : line ≠ terminate) :
    (runLoop fmt oracle (pre ++ line :: rest)).1 =
      (runLoop fmt oracle pre).1 ++ lineResponse fmt oracle line ++
        (runLoop fmt oracle rest).1 := by
  induction pre with
  | nil =>
    rw [List.nil_append, runLoop_cons, if_neg hline]
    simp [runLoop_nil]
  | cons p ps ih =>
    have hp : p ≠ terminate := (List.ne_of_not_mem_cons hpre).symm
    have hps : terminate ∉ ps := List.not_mem_of_not_mem_cons hpre
    simp only [List.cons_append, runLoop_cons, if_neg hp]
    simp only [ih hps, List.append_assoc]

/-- C10 witness: the response to request `b` after a failed request `a`. -/
theorem c10_history_independence_witness :
    (runLoop fmtZero oracleErr (["a"] ++ "b" :: [])).1 =
      (runLoop fmtZero oracleErr ["a"]).1 ++ lineResponse fmtZero oracleErr "b" ++
        (runLoop fmtZero oracleErr []).1 :=
  c10_history_independence fmtZero oracleErr ["a"] "b" [] (by decide) (by decide)

